import Mathlib

/-!
# Verification of `timepiece/crm/views.py`

A shallow embedding of the view layer of django-timepiece's CRM module,
with proofs about the monthly timesheet report builder, project timesheet
aggregation, CSV export, permission-gated dispatch, and user-project
relationship management.

Timestamps are modelled as natural numbers counting microseconds, matching
Python `datetime` arithmetic with `relativedelta(days=7)` and
`relativedelta(microseconds=1)` steps used by the code.
-/

namespace Timepiece

/-- Microseconds in one day (`relativedelta(days=1)` on a naive datetime). -/
def microsPerDay : Nat := 24 * 60 * 60 * 1000000

/-- Microseconds in one week (`relativedelta(days=7)`). -/
def microsPerWeek : Nat := 7 * microsPerDay

/-- Embedding of `ViewUserTimesheetAjax.get_weeks`: starting at the range
start, advance in 7-day steps while the cursor is before the range end;
each bucket spans its start to start-plus-7-days-minus-one-microsecond.
`add_timezone` only attaches timezone information and is the identity on
the instant, so it is omitted. -/
def get_weeks (cursor endT : Nat) : List (Nat × Nat) :=
  if cursor < endT then
    (cursor, cursor + microsPerWeek - 1) :: get_weeks (cursor + microsPerWeek) endT
  else []
termination_by endT - cursor
decreasing_by
  have h7 : 0 < microsPerWeek := by decide
  omega

/-! ## Project timesheet aggregation (`ProjectTimesheet.get_context_data`) -/

/-- An entry as seen by the project timesheet aggregation: the code groups
user totals by the `('user__first_name', 'user__last_name')` value pair and
activity totals by `'activity__name'`, and sums the `hours` field. -/
structure TimesheetEntry where
  userFirstName : String
  userLastName : String
  activityName : String
  hours : ℚ
deriving DecidableEq

/-- Sum of the `hours` field over a list of entries (`Sum('hours')`). -/
def sumHours (es : List TimesheetEntry) : ℚ :=
  (es.map TimesheetEntry.hours).sum

/-- Embedding of `entries_qs.aggregate(hours=Sum('hours'))['hours']`: the SQL `SUM`
aggregate is `NULL` on an empty set of rows, otherwise the sum. -/
def totalAggregate (es : List TimesheetEntry) : Option ℚ :=
  if es.isEmpty then none else some (sumHours es)

/-- Embedding of `values(keys).annotate(sum=Sum('hours'))`: one row per distinct key
value, carrying the sum of `hours` over the rows with that key. -/
def groupTotals {κ : Type} [DecidableEq κ] (k : TimesheetEntry → κ)
    (es : List TimesheetEntry) : List (κ × ℚ) :=
  (es.map k).dedup.map fun u => (u, sumHours (es.filter fun e => k e = u))

/-- Embedding of `.order_by('-sum')`: sort the grouped rows by descending sum. -/
def sortDescBySum {κ : Type} (l : List (κ × ℚ)) : List (κ × ℚ) :=
  l.mergeSort fun a b => decide (b.2 ≤ a.2)

/-- The `user_entries` context value: per-user hour totals, descending. -/
def user_entries (es : List TimesheetEntry) : List ((String × String) × ℚ) :=
  sortDescBySum (groupTotals (fun e => (e.userFirstName, e.userLastName)) es)

/-- The `activity_entries` context value: per-activity totals, descending. -/
def activity_entries (es : List TimesheetEntry) : List (String × ℚ) :=
  sortDescBySum (groupTotals TimesheetEntry.activityName es)

/-! ## Permission-gated dispatch -/

/-- Outcome of dispatching a request. -/
inductive Outcome
  | notFound
  | forbidden
  | ok
deriving DecidableEq

/-- An observable access to the persistent store. -/
inductive StoreEvent
  | entityLookup
  | storeQuery
deriving DecidableEq

/-- Embedding of `UserTimesheetMixin.dispatch`: fetch the timesheet user by
`user_id` (`get_object_or_404`, a not-found failure if absent); if the
requester is not that user and lacks `entries.view_entry_summary`, raise
`PermissionDenied`; otherwise continue. -/
def userTimesheetDispatch (users : List Nat) (requester : Nat)
    (hasViewEntrySummary : Bool) (user_id : Nat) : Outcome :=
  if user_id ∈ users then
    if requester = user_id then .ok
    else if hasViewEntrySummary then .ok
    else .forbidden
  else .notFound

/-- Trace-level view of `UserTimesheetMixin.dispatch`, recording store accesses: the
`get_object_or_404(User, pk=user_id)` entity lookup runs before the
permission check on every path, including the forbidden one. -/
def userTimesheetDispatchTrace (users : List Nat) (requester : Nat)
    (hasViewEntrySummary : Bool) (user_id : Nat) : Outcome × List StoreEvent :=
  (userTimesheetDispatch users requester hasViewEntrySummary user_id,
    [StoreEvent.entityLookup])

/-- Modelled from the spec: `PermissionsRequiredMixin` (imported from
`timepiece.utils.cbv`, whose source is not part of this file) rejects a
request lacking the handler's declared permission set with a forbidden
failure before the handler body runs; `body` stands for the store accesses
the handler body would perform. -/
def permissionsRequiredDispatch (required userPerms : List String)
    (body : List StoreEvent) : Outcome × List StoreEvent :=
  if required.all (fun p => userPerms.contains p) then (.ok, body)
  else (.forbidden, [])

/-! ## Monthly timesheet JSON entries (`ViewUserTimesheetAjax.get_month_entries`) -/

/-- An `Entry` row as seen by the monthly timesheet query: owner and end
time (microseconds). -/
structure DbEntry where
  user : Nat
  end_time : Nat
  id : Nat
deriving DecidableEq

/-- Embedding of `get_month_entries`: filter the entry table to the
timesheet user's entries whose `end_time` falls in the extended month range
(Django `__range` is inclusive at both ends), ordered by `end_time`. -/
def get_month_entries (db : List DbEntry) (timesheet_user : Nat)
    (start endT : Nat) : List DbEntry :=
  (((db.filter fun e => e.user == timesheet_user).filter
      fun e => decide (start ≤ e.end_time ∧ e.end_time ≤ endT)).mergeSort
    fun a b => decide (a.end_time ≤ b.end_time))

/-! ## CSV export (`ProjectTimesheetCSV.convert_context_to_csv`) -/

/-- A CSV cell: the code emits strings and numeric cells (the hours cell of
a data row and the total cell, which is `None` for an empty month). -/
inductive Cell
  | s (v : String)
  | q (v : Option ℚ)
deriving DecidableEq

/-- An entry dict as read by the CSV writer: `start_time`/`end_time`
(microseconds, rendered through `strftime`), names, and pause/hours. -/
structure CsvEntry where
  start_time : Nat
  end_time : Nat
  userFirstName : String
  userLastName : String
  activityName : String
  locationName : String
  seconds_paused : Nat
  hours : ℚ
deriving DecidableEq

/-- Modelled from the spec: `seconds_to_hours` (imported from
`timepiece.templatetags.timepiece_tags`, whose source is not part of this
file; the spec aggregates seconds into hours): seconds divided by 3600. -/
def seconds_to_hours (s : Nat) : ℚ := (s : ℚ) / 3600

/-- The header row written first by `convert_context_to_csv`. -/
def csvHeader : List Cell :=
  [Cell.s "Date", Cell.s "User", Cell.s "Activity", Cell.s "Location",
    Cell.s "Time In", Cell.s "Time Out", Cell.s "Breaks", Cell.s "Hours"]

/-- One data row per entry, in order. `fmtDate`/`fmtClock` stand for
Python's `strftime('%x')` and `strftime('%X')` renderings. -/
def csvEntryRow (fmtDate fmtClock : Nat → String) (e : CsvEntry) : List Cell :=
  [Cell.s (fmtDate e.start_time),
    Cell.s (e.userFirstName ++ " " ++ e.userLastName),
    Cell.s e.activityName,
    Cell.s e.locationName,
    Cell.s (fmtClock e.start_time),
    Cell.s (fmtClock e.end_time),
    Cell.q (some (seconds_to_hours e.seconds_paused)),
    Cell.q (some e.hours)]

/-- Embedding of `convert_context_to_csv`: the header row, one row per
entry in order, then the trailing total row
`('', '', '', '', '', '', 'Total:', total)`. -/
def convert_context_to_csv (fmtDate fmtClock : Nat → String)
    (entries : List CsvEntry) (total : Option ℚ) : List (List Cell) :=
  csvHeader :: entries.map (csvEntryRow fmtDate fmtClock) ++
    [[Cell.s "", Cell.s "", Cell.s "", Cell.s "", Cell.s "", Cell.s "",
      Cell.s "Total:", Cell.q total]]

/-! ## User-project relationships -/

/-- The `ProjectRelationship` store, as the list of stored
(user id, project id) associations. -/
abbrev RelStore := List (Nat × Nat)

/-- Embedding of `ProjectRelationship.objects.get_or_create(user=u,
project=p)`: fetch the association for the pair if it exists, create it
otherwise. -/
def get_or_create (store : RelStore) (u p : Nat) : RelStore :=
  if (u, p) ∈ store then store else store ++ [(u, p)]

/-- Response of `CreateRelationship.post`: the code unconditionally returns
a redirect to the success URL; no validation-error response exists. -/
inductive PostResponse
  | redirectToSuccessUrl
  | validationError
deriving DecidableEq

/-- Embedding of `CreateRelationship.post`: resolve user and project (each
`none` when no id is given and the selection form yields no object);
`get_or_create` only when both are present; always redirect. -/
def create_relationship_post (store : RelStore)
    (user : Option Nat) (project : Option Nat) : RelStore × PostResponse :=
  match user, project with
  | some u, some p => (get_or_create store u p, .redirectToSuccessUrl)
  | _, _ => (store, .redirectToSuccessUrl)

/-- Embedding of `RelationshipObjectMixin.get_object`:
`get_object_or_404(self.model, user__id=user_id, project__id=project_id)`
locates the association by the (user_id, project_id) request parameters
alone; `none` is the not-found failure. A `none` parameter matches no
stored row (SQL `NULL` comparison). -/
def rel_get_object (store : RelStore) (user_id project_id : Option Nat) :
    Option (Nat × Nat) :=
  store.find? fun r => user_id == some r.1 && project_id == some r.2

/-! ## Project timesheet report range (`ProjectTimesheet.get_context_data`) -/

/-- Embedding of the range selection: `if self.request.GET and
year_month_form.is_valid(): from_date, to_date = year_month_form.save()`,
else the current month. `formRange` is `some` exactly when the
`YearMonthForm` validates, and `currentMonthRange` is the current-month
fallback computed from today's date. The view renders unconditionally:
no validation error is surfaced on either path. -/
def project_timesheet_range (hasParams : Bool)
    (formRange : Option (Nat × Nat)) (currentMonthRange : Nat × Nat) :
    Nat × Nat :=
  if hasParams && formRange.isSome then formRange.getD currentMonthRange
  else currentMonthRange

/-! ## Theorems -/

theorem get_weeks_pos (cursor endT : Nat) (h : cursor < endT) :
    get_weeks cursor endT =
      (cursor, cursor + microsPerWeek - 1) :: get_weeks (cursor + microsPerWeek) endT := by
  rw [get_weeks]
  simp [h]

theorem get_weeks_neg (cursor endT : Nat) (h : ¬ cursor < endT) :
    get_weeks cursor endT = [] := by
  rw [get_weeks]
  simp [h]

/-- Every instant in `[start, endT)` lies inside some produced bucket. -/
theorem get_weeks_covers (start endT t : Nat) (h1 : start ≤ t) (h2 : t < endT) :
    ∃ p ∈ get_weeks start endT, p.1 ≤ t ∧ t ≤ p.2 := by
  have hw : 0 < microsPerWeek := by decide
  by_cases hlt : start < endT
  · rw [get_weeks_pos start endT hlt]
    by_cases hin : t < start + microsPerWeek
    · exact ⟨(start, start + microsPerWeek - 1), List.mem_cons_self _ _, h1, by omega⟩
    · have ih := get_weeks_covers (start + microsPerWeek) endT t (by omega) h2
      obtain ⟨p, hp, hle⟩ := ih
      exact ⟨p, List.mem_cons_of_mem _ hp, hle⟩
  · omega
termination_by endT - start
decreasing_by
  have h7 : 0 < microsPerWeek := by decide
  omega

/-- Consecutive buckets are adjacent: each bucket ends exactly one
microsecond before the next one starts (no gap, no overlap). -/
theorem get_weeks_adjacent (start endT : Nat) :
    List.Chain' (fun p q : Nat × Nat => p.2 + 1 = q.1) (get_weeks start endT) := by
  have hw : 0 < microsPerWeek := by decide
  by_cases hlt : start < endT
  · rw [get_weeks_pos start endT hlt]
    have ih := get_weeks_adjacent (start + microsPerWeek) endT
    apply List.Chain'.cons'
    · exact ih
    · intro q hq
      by_cases hlt2 : start + microsPerWeek < endT
      · rw [get_weeks_pos _ _ hlt2] at hq
        simp only [List.head?_cons, Option.mem_def, Option.some.injEq] at hq
        subst hq
        simp only []
        omega
      · rw [get_weeks_neg _ _ hlt2] at hq
        simp at hq
  · rw [get_weeks_neg _ _ hlt]
    exact List.chain'_nil
termination_by endT - start
decreasing_by
  have h7 : 0 < microsPerWeek := by decide
  omega

theorem sum_map_ite_single {κ : Type} [DecidableEq κ] (us : List κ) (a : κ)
    (c : ℚ) (hnd : us.Nodup) (ha : a ∈ us) :
    (us.map fun u => if u = a then c else 0).sum = c := by
  induction us with
  | nil => cases ha
  | cons u us ih =>
    rw [List.map_cons, List.sum_cons]
    rcases List.mem_cons.mp ha with h | h
    · rw [if_pos h.symm]
      have hz : ((us.map fun v => if v = a then c else 0)).sum = 0 := by
        apply List.sum_eq_zero
        intro x hx
        obtain ⟨v, hv, hvx⟩ := List.mem_map.mp hx
        have hvne : v ≠ a := by
          intro hva
          exact (List.nodup_cons.mp hnd).1 (by rw [← h, ← hva]; exact hv)
        rw [if_neg hvne] at hvx
        exact hvx.symm
      rw [hz]
      ring
    · have hne : u ≠ a := fun hua => (List.nodup_cons.mp hnd).1 (hua ▸ h)
      rw [if_neg hne, ih (List.nodup_cons.mp hnd).2 h]
      ring

theorem sum_over_keys {κ : Type} [DecidableEq κ] (k : TimesheetEntry → κ)
    (es : List TimesheetEntry) (us : List κ) (hnd : us.Nodup)
    (hcov : ∀ e ∈ es, k e ∈ us) :
    (us.map fun u => sumHours (es.filter fun e => k e = u)).sum = sumHours es := by
  induction es with
  | nil =>
    rw [show sumHours [] = 0 from rfl]
    apply List.sum_eq_zero
    intro x hx
    obtain ⟨u, _, hux⟩ := List.mem_map.mp hx
    simpa [List.filter_nil] using hux.symm
  | cons e es ih =>
    have step : ∀ u, sumHours ((e :: es).filter fun x => k x = u) =
        (if u = k e then e.hours else 0) + sumHours (es.filter fun x => k x = u) := by
      intro u
      by_cases hke : k e = u
      · rw [List.filter_cons_of_pos (by simpa using hke), if_pos hke.symm]
        rfl
      · rw [List.filter_cons_of_neg (by simpa using hke),
          if_neg (fun h => hke h.symm)]
        ring_nf
    calc (us.map fun u => sumHours ((e :: es).filter fun x => k x = u)).sum
        = (us.map fun u =>
            (if u = k e then e.hours else 0) +
              sumHours (es.filter fun x => k x = u)).sum := by
          congr 1
          exact List.map_congr_left fun u _ => step u
      _ = (us.map fun u => if u = k e then e.hours else 0).sum +
            (us.map fun u => sumHours (es.filter fun x => k x = u)).sum :=
          List.sum_map_add
      _ = e.hours + sumHours es := by
          rw [sum_map_ite_single us (k e) e.hours hnd
              (hcov e (List.mem_cons_self _ _)),
            ih fun x hx => hcov x (List.mem_cons_of_mem _ hx)]
      _ = sumHours (e :: es) := by
          rw [show sumHours (e :: es) = e.hours + sumHours es from rfl]

theorem groupTotals_sum {κ : Type} [DecidableEq κ] (k : TimesheetEntry → κ)
    (es : List TimesheetEntry) :
    ((groupTotals k es).map Prod.snd).sum = sumHours es := by
  rw [groupTotals, List.map_map]
  exact sum_over_keys k es (es.map k).dedup (List.nodup_dedup _)
    fun e he => List.mem_dedup.mpr (List.mem_map_of_mem k he)

theorem sortDescBySum_sum {κ : Type} (l : List (κ × ℚ)) :
    ((sortDescBySum l).map Prod.snd).sum = (l.map Prod.snd).sum :=
  ((List.mergeSort_perm l _).map Prod.snd).sum_eq

/-! ## Claim theorems -/

/-- C1: For every extended report range (range start strictly before range
end), the week buckets produced by `get_weeks` — starting at the range
start and advancing in 7-day steps while the cursor is before the range
end, each bucket spanning its start to start-plus-7-days-minus-one-
microsecond — together cover every instant of the range, and consecutive
buckets have no gap and no overlap: each bucket ends exactly one
microsecond before the next begins. -/
theorem week_buckets_cover_without_gaps_or_overlaps (start endT : Nat)
    (hrange : start < endT) :
    (∀ t, start ≤ t → t < endT →
      ∃ p ∈ get_weeks start endT, p.1 ≤ t ∧ t ≤ p.2) ∧
    List.Chain' (fun p q : Nat × Nat => p.2 + 1 = q.1)
      (get_weeks start endT) ∧
    get_weeks start endT ≠ [] :=
  ⟨fun t h1 h2 => get_weeks_covers start endT t h1 h2,
    get_weeks_adjacent start endT,
    by rw [get_weeks_pos start endT hrange]; exact List.cons_ne_nil _ _⟩

/-- C1 witness: the buckets of a 35-day extended range cover its 9th day. -/
theorem week_buckets_cover_witness :
    ∃ p ∈ get_weeks 0 (35 * microsPerDay),
      p.1 ≤ 8 * microsPerDay ∧ 8 * microsPerDay ≤ p.2 :=
  (week_buckets_cover_without_gaps_or_overlaps 0 (35 * microsPerDay)
      (by decide)).1 (8 * microsPerDay) (by decide) (by decide)

/-- C2: For any list of entries of the project in the selected month, the
total hours (the sum of `hours` over all entries, which is what the SQL
aggregate yields whenever any entry exists) equals the sum of the per-user
totals and equals the sum of the per-activity totals. -/
theorem project_totals_consistent (es : List TimesheetEntry) :
    sumHours es = ((user_entries es).map Prod.snd).sum ∧
    sumHours es = ((activity_entries es).map Prod.snd).sum ∧
    ∀ t, totalAggregate es = some t → t = sumHours es := by
  refine ⟨?_, ?_, ?_⟩
  · rw [user_entries, sortDescBySum_sum, groupTotals_sum]
  · rw [activity_entries, sortDescBySum_sum, groupTotals_sum]
  · intro t ht
    rw [totalAggregate] at ht
    by_cases he : es.isEmpty
    · rw [if_pos he] at ht
      cases ht
    · rw [if_neg he] at ht
      exact (Option.some.injEq _ _ ▸ ht).symm

/-- C2 witness: on a concrete two-entry set the aggregate equals the sum. -/
theorem project_totals_witness :
    (5 : ℚ) =
      sumHours [⟨"Ada", "L", "Dev", 2⟩, ⟨"Ada", "L", "QA", 3⟩] :=
  (project_totals_consistent
      [⟨"Ada", "L", "Dev", 2⟩, ⟨"Ada", "L", "QA", 3⟩]).2.2 5
    (by norm_num [totalAggregate, sumHours])

/-- C3: if the target user exists, then a requester who is not the target
and lacks `entries.view_entry_summary` gets a forbidden failure, while a
requester asking for their own timesheet succeeds regardless of that
permission. -/
theorem own_timesheet_permission (users : List Nat)
    (requester : Nat) (perm : Bool) (user_id : Nat)
    (hmem : user_id ∈ users) :
    (requester ≠ user_id → perm = false →
      userTimesheetDispatch users requester perm user_id =
        Outcome.forbidden) ∧
    (requester = user_id →
      userTimesheetDispatch users requester perm user_id = Outcome.ok) := by
  constructor
  · intro hne hperm
    rw [userTimesheetDispatch, if_pos hmem, if_neg hne, hperm]
    rfl
  · intro heq
    rw [userTimesheetDispatch, if_pos hmem, if_pos heq]

/-- C3 witness: user 1 without the permission is forbidden user 2's
timesheet but may view their own. -/
theorem own_timesheet_permission_witness :
    userTimesheetDispatch [1, 2] 1 false 2 = Outcome.forbidden ∧
    userTimesheetDispatch [1, 2] 1 false 1 = Outcome.ok :=
  ⟨(own_timesheet_permission [1, 2] 1 false 2 (by decide)).1
      (by decide) rfl,
    (own_timesheet_permission [1, 2] 1 false 1 (by decide)).2 rfl⟩

/-- C4 counterexample: user 1, lacking the summary permission, requests
user 2's timesheet; the request is rejected as forbidden, yet an entity
lookup (the `get_object_or_404` fetch of the target user) was performed on
that rejected path — contradicting the claim that no data access happens
before rejection for every handler. -/
theorem timesheet_dispatch_lookup_before_reject :
    (userTimesheetDispatchTrace [1, 2] 1 false 2).1 = Outcome.forbidden ∧
    StoreEvent.entityLookup ∈
      (userTimesheetDispatchTrace [1, 2] 1 false 2).2 := by
  decide

/-- C4 amended: handlers gated by `PermissionsRequiredMixin` reject a
request lacking the declared permission set before any data access (the
rejected path performs no store event); the user-timesheet views are the
exception — their dispatch performs exactly one entity lookup (the target
user fetch) on every path, including the rejected one. -/
theorem permission_rejection_before_data_access
    (required userPerms : List String) (body : List StoreEvent)
    (hlack : required.all (fun p => userPerms.contains p) = false) :
    permissionsRequiredDispatch required userPerms body =
      (Outcome.forbidden, []) ∧
    ∀ users requester perm uid,
      (userTimesheetDispatchTrace users requester perm uid).2 =
        [StoreEvent.entityLookup] := by
  constructor
  · rw [permissionsRequiredDispatch, hlack]
    rfl
  · intro users requester perm uid
    rfl

/-- C4 witness: a request with no permissions against a handler requiring
one is rejected with an empty access trace. -/
theorem permission_rejection_witness :
    permissionsRequiredDispatch ["crm.view_business"] []
        [StoreEvent.storeQuery] = (Outcome.forbidden, []) ∧
    ∀ users requester perm uid,
      (userTimesheetDispatchTrace users requester perm uid).2 =
        [StoreEvent.entityLookup] :=
  permission_rejection_before_data_access ["crm.view_business"] []
    [StoreEvent.storeQuery] (by decide)

/-- C5: the CSV export is exactly one header row
`[Date, User, Activity, Location, Time In, Time Out, Breaks, Hours]`, then
one data row per entry in order, then one trailing row whose next-to-last
cell is `Total:`; the row count is the entry count plus two. -/
theorem csv_rows_shape (fmtDate fmtClock : Nat → String)
    (entries : List CsvEntry) (total : Option ℚ) :
    (convert_context_to_csv fmtDate fmtClock entries total).length =
      entries.length + 2 ∧
    (convert_context_to_csv fmtDate fmtClock entries total).head? =
      some csvHeader ∧
    (∀ i, i < entries.length →
      (convert_context_to_csv fmtDate fmtClock entries total).get? (i + 1) =
        (entries.get? i).map (csvEntryRow fmtDate fmtClock)) ∧
    ∃ lastRow,
      (convert_context_to_csv fmtDate fmtClock entries total).getLast? =
        some lastRow ∧
      lastRow.length = 8 ∧ lastRow.get? 6 = some (Cell.s "Total:") := by
  rw [convert_context_to_csv]
  refine ⟨by simp, rfl, ?_, ?_⟩
  · intro i hi
    rw [List.get?_append (by simpa using Nat.succ_lt_succ hi),
      List.get?_cons_succ, List.get?_map]
  · exact ⟨[Cell.s "", Cell.s "", Cell.s "", Cell.s "", Cell.s "",
      Cell.s "", Cell.s "Total:", Cell.q total],
      List.getLast?_concat _, rfl, rfl⟩

/-- C5 witness: with one entry, the second row is that entry's data row. -/
theorem csv_rows_shape_witness :
    (convert_context_to_csv (fun _ => "d") (fun _ => "c")
        [⟨0, 60, "Ada", "L", "Dev", "Office", 0, 1⟩] none).get? 1 =
      ([⟨0, 60, "Ada", "L", "Dev", "Office", 0, 1⟩].get? 0).map
        (csvEntryRow (fun _ => "d") (fun _ => "c")) :=
  (csv_rows_shape (fun _ => "d") (fun _ => "c")
      [⟨0, 60, "Ada", "L", "Dev", "Office", 0, 1⟩] none).2.2.1 0 (by decide)

/-- C6: the monthly timesheet entries are exactly the timesheet user's
entries whose end time lies within the extended month range (inclusive at
both ends, as Django's `__range` is), sorted ascending by end time. -/
theorem month_entries_exact_and_sorted (db : List DbEntry)
    (timesheet_user start endT : Nat) :
    (∀ e, e ∈ get_month_entries db timesheet_user start endT ↔
      e ∈ db ∧ e.user = timesheet_user ∧
        start ≤ e.end_time ∧ e.end_time ≤ endT) ∧
    List.Pairwise (fun a b : DbEntry => a.end_time ≤ b.end_time)
      (get_month_entries db timesheet_user start endT) := by
  constructor
  · intro e
    rw [get_month_entries, List.mem_mergeSort, List.mem_filter,
      List.mem_filter]
    constructor
    · rintro ⟨⟨hdb, huser⟩, hrange⟩
      have huser' : e.user = timesheet_user := by simpa using huser
      have hrange' := of_decide_eq_true hrange
      exact ⟨hdb, huser', hrange'⟩
    · rintro ⟨hdb, huser, hrange⟩
      exact ⟨⟨hdb, by simpa using huser⟩, decide_eq_true hrange⟩
  · rw [get_month_entries]
    have htrans : ∀ a b c : DbEntry,
        decide (a.end_time ≤ b.end_time) = true →
        decide (b.end_time ≤ c.end_time) = true →
        decide (a.end_time ≤ c.end_time) = true := by
      intro a b c h1 h2
      have := of_decide_eq_true h1
      have := of_decide_eq_true h2
      exact decide_eq_true (by omega)
    have htotal : ∀ a b : DbEntry,
        (decide (a.end_time ≤ b.end_time) ||
          decide (b.end_time ≤ a.end_time)) = true := by
      intro a b
      rcases Nat.le_total a.end_time b.end_time with h | h
      · rw [decide_eq_true h]
        rfl
      · rw [decide_eq_true h]
        simp
    have hs := List.sorted_mergeSort htrans htotal
      ((db.filter fun e => e.user == timesheet_user).filter
        fun e => decide (start ≤ e.end_time ∧ e.end_time ≤ endT))
    exact hs.imp fun h => of_decide_eq_true h

/-- C6 witness: a matching entry is returned on a concrete table. -/
theorem month_entries_witness :
    (⟨1, 5, 0⟩ : DbEntry) ∈
      get_month_entries [⟨1, 5, 0⟩, ⟨2, 6, 1⟩, ⟨1, 99, 2⟩] 1 0 10 :=
  ((month_entries_exact_and_sorted [⟨1, 5, 0⟩, ⟨2, 6, 1⟩, ⟨1, 99, 2⟩]
      1 0 10).1 ⟨1, 5, 0⟩).mpr ⟨by decide, rfl, by decide, by decide⟩

theorem mem_get_or_create (store : RelStore) (u p : Nat) :
    (u, p) ∈ get_or_create store u p := by
  rw [get_or_create]
  by_cases h : (u, p) ∈ store
  · rw [if_pos h]
    exact h
  · rw [if_neg h]
    exact List.mem_append_right _ (List.mem_singleton.mpr rfl)

theorem get_or_create_of_mem (store : RelStore) (u p : Nat)
    (h : (u, p) ∈ store) : get_or_create store u p = store := by
  rw [get_or_create, if_pos h]

/-- C7: creating a (user, project) relationship twice — or any positive
number of times — leaves exactly one stored association for the pair
(assuming the store's own uniqueness guarantee beforehand), and the second
application leaves the store state unchanged: `get_or_create` is
idempotent. -/
theorem relationship_create_idempotent (store : RelStore) (u p : Nat)
    (hunique : store.count (u, p) ≤ 1) :
    get_or_create (get_or_create store u p) u p = get_or_create store u p ∧
    ∀ n, ((fun s => get_or_create s u p)^[n + 1] store).count (u, p) = 1 := by
  constructor
  · exact get_or_create_of_mem _ u p (mem_get_or_create store u p)
  · intro n
    induction n with
    | zero =>
      rw [Function.iterate_one]
      rw [get_or_create]
      by_cases h : (u, p) ∈ store
      · rw [if_pos h]
        have hpos : 0 < store.count (u, p) := List.count_pos_iff.mpr h
        omega
      · rw [if_neg h, List.count_append, List.count_singleton]
        rw [List.count_eq_zero.mpr h]
        simp
    | succ n ih =>
      rw [Function.iterate_succ_apply']
      have hmem : (u, p) ∈ (fun s => get_or_create s u p)^[n + 1] store :=
        List.count_pos_iff.mp (by omega)
      rw [get_or_create_of_mem _ u p hmem]
      exact ih

/-- C7 witness: from an empty store, four successive creations leave one
association for the pair, and the double application collapses. -/
theorem relationship_create_idempotent_witness :
    get_or_create (get_or_create [] 1 2) 1 2 = get_or_create [] 1 2 ∧
    ((fun s => get_or_create s 1 2)^[4] []).count (1, 2) = 1 :=
  ⟨(relationship_create_idempotent [] 1 2 (by decide)).1,
    (relationship_create_idempotent [] 1 2 (by decide)).2 3⟩

/-- C8: the relationship edit/delete target is located solely by the
(user_id, project_id) request parameters: when no stored association
matches the pair the lookup yields the not-found failure, and any
association it does yield is a stored one matching exactly that pair. -/
theorem relationship_lookup_by_pair (store : RelStore)
    (user_id project_id : Option Nat) :
    ((∀ r ∈ store,
        ¬(user_id = some r.1 ∧ project_id = some r.2)) →
      rel_get_object store user_id project_id = none) ∧
    ∀ r, rel_get_object store user_id project_id = some r →
      r ∈ store ∧ user_id = some r.1 ∧ project_id = some r.2 := by
  constructor
  · intro hno
    rw [rel_get_object]
    apply List.find?_eq_none.mpr
    intro r hr hc
    rw [Bool.and_eq_true, beq_iff_eq, beq_iff_eq] at hc
    exact hno r hr hc
  · intro r hr
    refine ⟨List.mem_of_find?_eq_some hr, ?_⟩
    have hp := List.find?_some hr
    rw [Bool.and_eq_true, beq_iff_eq, beq_iff_eq] at hp
    exact hp

/-- C8 witness: a pair with no stored association yields not-found. -/
theorem relationship_lookup_witness :
    rel_get_object [(1, 2)] (some 3) (some 2) = none :=
  (relationship_lookup_by_pair [(1, 2)] (some 3) (some 2)).1 (by decide)

/-- C9: when the resolved user or the resolved project is absent, the
relationship-create request writes nothing — the store is unchanged — and
still responds with the redirect to the success URL, not a validation
error. -/
theorem relationship_create_missing_target (store : RelStore)
    (user project : Option Nat) (h : user = none ∨ project = none) :
    create_relationship_post store user project =
      (store, PostResponse.redirectToSuccessUrl) := by
  rcases h with h | h
  · subst h
    cases project <;> rfl
  · subst h
    cases user <;> rfl

/-- C9 witness: no user resolved, so the concrete store is untouched and
the response is the redirect. -/
theorem relationship_create_missing_target_witness :
    create_relationship_post [(5, 7)] none (some 7) =
      ([(5, 7)], PostResponse.redirectToSuccessUrl) :=
  relationship_create_missing_target [(5, 7)] none (some 7) (Or.inl rfl)

/-- C10: present-but-invalid year/month parameters make the project
timesheet fall back to the current month, exactly as when no parameters
are given; the range selection is total and surfaces no validation
error. -/
theorem invalid_month_params_fallback (formRange : Option (Nat × Nat))
    (currentMonthRange : Nat × Nat) :
    project_timesheet_range true none currentMonthRange =
      currentMonthRange ∧
    project_timesheet_range false formRange currentMonthRange =
      currentMonthRange ∧
    project_timesheet_range true none currentMonthRange =
      project_timesheet_range false formRange currentMonthRange :=
  ⟨rfl, rfl, rfl⟩

end Timepiece
